import Mathlib

/-!
Verification of the task-lifecycle core of the molecule-review demo backend
(`backend/app/storage.py`, `backend/app/schemas.py`,
`backend/app/services/rdkit_service.py`, `backend/app/services/qc_service.py`).

The Python code is shallowly embedded: pydantic models become structures,
the RDKit structure engine becomes an abstract `Engine` record (its chemistry
is external to the repository), and each `TaskStore` method becomes a function
`Store → args → Option Err × Store` returning the error raised (if any)
together with the post-state of the task collection, so that "the store is
unchanged on failure" is a real statement rather than a typing artifact.

Python truthiness on optional strings (`if s:`) is modeled by `pyTruthy`,
`str.strip` by `pyStrip`, `list(dict.fromkeys(..))` by `dedupKeepFirst`, and
`"".join(s.split())` by `stripAllWs`, each faithful to the source's use.
-/

/-- Python truthiness of an `Optional[str]`: `None` and `""` are falsy. -/
def pyTruthy : Option String → Bool
  | none => false
  | some s => !s.data.isEmpty

/-- `str.strip()` on the character list: drop leading and trailing whitespace. -/
def pyStripChars (l : List Char) : List Char :=
  ((l.dropWhile Char.isWhitespace).reverse.dropWhile Char.isWhitespace).reverse

/-- `str.strip()`. -/
def pyStrip (s : String) : String :=
  String.mk (pyStripChars s.data)

/-- Substring test (`pat in s` in Python). -/
def strContains (s pat : String) : Bool :=
  s.data.tails.any (fun t => pat.data.isPrefixOf t)

/-- `s.startswith(pat)`. -/
def strStartsWith (s pat : String) : Bool :=
  pat.data.isPrefixOf s.data

/-- `"".join(s.split())`: remove every whitespace character. -/
def stripAllWs (s : String) : String :=
  String.mk (s.data.filter (fun c => !c.isWhitespace))

/-- `list(dict.fromkeys(l))`: deduplicate keeping the first occurrence, in order. -/
def dedupKeepFirst (l : List String) : List String :=
  l.foldl (fun acc x => if acc.contains x then acc else acc ++ [x]) []

/-- `datetime` values: only identity matters to the claims; `isoformat` renders
the tick counter as decimal digits (the real isoformat likewise never contains
a comma, a double quote or a newline, which is all the CSV proofs use). -/
structure PyDateTime where
  tick : Nat
  deriving DecidableEq, Repr

/-- `datetime.isoformat()` surrogate. -/
def PyDateTime.isoformat (d : PyDateTime) : String :=
  toString d.tick

/-- `TaskStatus` enum (schemas.py). -/
inductive TaskStatus
  | NEW
  | IN_PROGRESS
  | SUBMITTED
  | APPROVED
  | REJECTED
  deriving DecidableEq, Repr

/-- `QCResult` (schemas.py). -/
structure QCResult where
  rdkit_parse_ok : Bool
  sanitize_ok : Bool
  warnings : List String
  deriving DecidableEq, Repr

/-- `TaskSource` (schemas.py). -/
structure TaskSource where
  smiles : Option String
  mol : Option String
  deriving DecidableEq, Repr

/-- `Annotation` (schemas.py); named `Annot` here. -/
structure Annot where
  annotator : String
  smiles : Option String
  mol : Option String
  canonical_smiles : Option String
  molblock : Option String
  qc : QCResult
  submitted_at : PyDateTime
  deriving DecidableEq, Repr

/-- `Review` (schemas.py). -/
structure Review where
  reviewer : String
  decision : TaskStatus
  comment : Option String
  reviewed_at : PyDateTime
  deriving DecidableEq, Repr

/-- A task as the storage layer uses it.  `claimed_by` / `claimed_at` are the
attributes `claim_task` (storage.py:90-91) assigns; note that the pydantic
`MolTask` model in schemas.py:84-91 does NOT declare them (see
`schemasTaskFields` and `claim_task_pyd` below, which model that fact). -/
structure MolTask where
  id : String
  title : String
  status : TaskStatus
  source : TaskSource
  claimed_by : Option String := none
  claimed_at : Option PyDateTime := none
  annot : Option Annot := none
  review : Option Review := none
  deriving DecidableEq, Repr

/-- Error taxonomy: `KeyError` → NotFound, `ValueError` from a guard →
InvalidState, `ValueError` from `export` → UnsupportedFormat (the mapping
main.py applies at the boundary). -/
inductive Err
  | notFound
  | invalidState
  | unsupportedFormat
  deriving DecidableEq, Repr

/-- The task collection: a dict keyed by `id` in insertion order. -/
abbrev Store := List MolTask

/-- `self._tasks[task_id]` lookup. -/
def findTask (store : Store) (tid : String) : Option MolTask :=
  store.find? (fun t => t.id = tid)

/-- In-place mutation of the task held under `tid`. -/
def updateTask (store : Store) (tid : String) (t' : MolTask) : Store :=
  store.map (fun t => if t.id = tid then t' else t)

/-! ## rdkit_service.py -/

/-- The external RDKit capability, abstract over its molecule type.
`sanitizeMol` returns `(ok, detail)` as `sanitize_molecule` does;
`toCanonical` / `toMolblock` return `Except` because the Python calls
sit inside `try`/`except` blocks in `parse_and_qc`. -/
structure Engine (Mol : Type) where
  parseSmiles : String → Option Mol
  parseMolBlock : String → Option Mol
  sanitizeMol : Mol → Bool × Option String
  toCanonical : Mol → Except String String
  toMolblock : Mol → Except String String

/-- `RDKitParseResult` (rdkit_service.py). -/
structure RDKitParseResult (Mol : Type) where
  mol : Option Mol
  warnings : List String

/-- The six top-level markers of a structure-editor JSON payload
(rdkit_service.py:21). -/
def jsonMarkers : List String :=
  [("\"root\""), ("\"atoms\""), ("\"bonds\""), ("\"molecule\""), ("\"connections\""), ("\"templates\"")]

/-- `looks_like_structured_json` (rdkit_service.py:15-22). -/
def looks_like_structured_json (value : Option String) : Bool :=
  match value with
  | none => false
  | some v =>
    let candidate := pyStrip v
    if candidate.data.isEmpty || !(strStartsWith candidate ("\x7b")) then false
    else jsonMarkers.any (fun marker => strContains candidate marker)

/-- `_looks_like_smiles` (rdkit_service.py:25-31). -/
def looks_like_smiles (value : String) : Bool :=
  let candidate := pyStrip value
  if candidate.data.isEmpty then false
  else if strContains candidate ("M  END") then false
  else true

/-- `_looks_like_molblock` (rdkit_service.py:34-41). -/
def looks_like_molblock (value : String) : Bool :=
  let candidate := pyStrip value
  if candidate.data.isEmpty then false
  else if !(strContains candidate ("M  END")) then false
  else true

/-- How `build_molecule` routes the linear-notation field (the branch
structure of rdkit_service.py:48-58): skipped when falsy, tagged when it
looks like an editor payload, given to the engine's SMILES routine (on the
whitespace-stripped text) when it looks like SMILES, otherwise flagged
`smiles_format_invalid`. -/
inductive SmilesRoute
  | skipped
  | structuredJson
  | engineParse (normalized : String)
  | formatInvalid
  deriving DecidableEq, Repr

/-- The route `build_molecule` takes for the `smiles` argument. -/
def smilesRoute (smiles : Option String) : SmilesRoute :=
  if !(pyTruthy smiles) then .skipped
  else
    let s := smiles.getD ("")
    if looks_like_structured_json smiles then .structuredJson
    else if looks_like_smiles s then .engineParse (stripAllWs s)
    else .formatInvalid

/-- `build_molecule` (rdkit_service.py:44-67). -/
def build_molecule {Mol : Type} (eng : Engine Mol) (smiles molblockArg : Option String) :
    RDKitParseResult Mol :=
  let step1 : Option Mol × List String :=
    match smilesRoute smiles with
    | .skipped => (none, [])
    | .structuredJson => (none, [("structured_json_payload")])
    | .engineParse normalized =>
      match eng.parseSmiles normalized with
      | some m => (some m, [])
      | none => (none, [("smiles_parse_failed")])
    | .formatInvalid => (none, [("smiles_format_invalid")])
  let step2 : Option Mol × List String :=
    if step1.1.isNone && pyTruthy molblockArg then
      let b := molblockArg.getD ("")
      if looks_like_molblock b then
        match eng.parseMolBlock b with
        | some m => (some m, [])
        | none => (none, [("molblock_parse_failed")])
      else (none, [("molblock_format_invalid")])
    else (none, [])
  ⟨(step1.1).orElse (fun _ => step2.1), step1.2 ++ step2.2⟩

/-! ## qc_service.py -/

/-- `parse_and_qc` (qc_service.py:15-37): returns
`(qc, canonical, molblock, result)`. -/
def parse_and_qc {Mol : Type} (eng : Engine Mol) (smiles molb : Option String) :
    QCResult × Option String × Option String × RDKitParseResult Mol :=
  let result := build_molecule eng smiles molb
  match result.mol with
  | none => (⟨false, false, result.warnings⟩, none, none, result)
  | some m =>
    let sanitizeOut := eng.sanitizeMol m
    let w1 :=
      if pyTruthy sanitizeOut.2 then [("sanitize_error:") ++ sanitizeOut.2.getD ("")] else []
    let canonicalOut : Option String × List String :=
      match eng.toCanonical m with
      | .ok c => (some c, [])
      | .error e => (none, [("canonical_failure:") ++ e])
    let molblockOut : Option String × List String :=
      match eng.toMolblock m with
      | .ok b => (some b, [])
      | .error e => (none, [("molblock_failure:") ++ e])
    (⟨true, sanitizeOut.1, result.warnings ++ w1 ++ canonicalOut.2 ++ molblockOut.2⟩,
      canonicalOut.1, molblockOut.1, result)

/-! ## storage.py -/

/-- `MANUAL_REVIEW_WARNING` (storage.py:28). -/
def MANUAL_REVIEW_WARNING : String :=
  "manual_review_required_json_payload"

/-- `TaskSeed` (schemas.py). -/
structure TaskSeed where
  title : String
  source_smiles : Option String := none
  source_mol : Option String := none
  deriving DecidableEq, Repr

/-- `ClaimRequest` (schemas.py). -/
structure ClaimRequest where
  user : String
  deriving DecidableEq, Repr

/-- `SubmitRequest` (schemas.py); its validator strips empty strings to
`None`, but the storage layer is modeled over arbitrary option values. -/
structure SubmitRequest where
  annotator : String
  smiles : Option String := none
  mol : Option String := none
  deriving DecidableEq, Repr

/-- `ReviewRequest` after pydantic validation (schemas.py:128-138). -/
structure ReviewRequest where
  reviewer : String
  decision : TaskStatus
  comment : Option String := none
  deriving DecidableEq, Repr

/-- `TaskStore.list_tasks` (storage.py:59-60): returns a copy of the values;
the collection itself is untouched. -/
def list_tasks (store : Store) : List MolTask × Store :=
  (store, store)

/-- `TaskStore.get_task` (storage.py:78-82). -/
def get_task (store : Store) (tid : String) : Except Err MolTask × Store :=
  (match findTask store tid with
   | some t => .ok t
   | none => .error .notFound, store)

/-- `TaskStore.create_tasks` (storage.py:62-76); `ids` supplies the fresh
`uuid4`-based identifiers `_create_id` would draw. -/
def create_tasks (store : Store) (seeds : List TaskSeed) (ids : List String) :
    Option Err × Store :=
  (none, store ++ (seeds.zip ids).map (fun p =>
    { id := p.2, title := p.1.title, status := .NEW,
      source := ⟨p.1.source_smiles, p.1.source_mol⟩ }))

/-- `TaskStore.claim_task` (storage.py:84-93), as the method body reads:
guard on NEW, then set `status`, `claimed_by`, `claimed_at`. -/
def claim_task (store : Store) (tid : String) (req : ClaimRequest) (now : PyDateTime) :
    Option Err × Store :=
  match findTask store tid with
  | none => (some .notFound, store)
  | some task =>
    if task.status ≠ .NEW then (some .invalidState, store)
    else (none, updateTask store tid
      { task with status := .IN_PROGRESS, claimed_by := some req.user, claimed_at := some now })

/-- The fields the pydantic `MolTask` model actually declares
(schemas.py:84-91). -/
def schemasTaskFields : List String :=
  [("id"), ("title"), ("status"), ("source"), ("annotation"), ("review"), ("context")]

/-- `claim_task` under pydantic assignment semantics: each attribute is set
in place, and setting an attribute the model does not declare raises
`ValueError` (`"MolTask" object has no field "claimed_by"`), leaving the
assignments already made in effect.  `status` is declared so its assignment
lands; `claimed_by` is not, so the method fails after the status mutation. -/
def claim_task_pyd (store : Store) (tid : String) (req : ClaimRequest) (now : PyDateTime) :
    Option Err × Store :=
  match findTask store tid with
  | none => (some .notFound, store)
  | some task =>
    if task.status ≠ .NEW then (some .invalidState, store)
    else
      let store1 := updateTask store tid { task with status := .IN_PROGRESS }
      if schemasTaskFields.contains ("claimed_by") then
        (none, updateTask store1 tid
          { task with
            status := .IN_PROGRESS
            claimed_by := some req.user
            claimed_at := some now })
      else (some .invalidState, store1)

/-- `TaskStore.submit_annotation` (storage.py:95-132). -/
def submit_annot {Mol : Type} (eng : Engine Mol) (store : Store) (tid : String)
    (payload : SubmitRequest) (now : PyDateTime) : Option Err × Store :=
  match findTask store tid with
  | none => (some .notFound, store)
  | some task =>
    if task.status ≠ .IN_PROGRESS then (some .invalidState, store)
    else if !(pyTruthy task.claimed_by) then (some .invalidState, store)
    else if task.claimed_by ≠ some payload.annotator then (some .invalidState, store)
    else
      let pq := parse_and_qc eng payload.smiles payload.mol
      let qc := pq.1
      let canonical := pq.2.1
      let molblock := pq.2.2.1
      let manual_review_mode :=
        looks_like_structured_json payload.smiles && !(pyTruthy payload.mol)
      if manual_review_mode && !qc.rdkit_parse_ok then
        let warnings := dedupKeepFirst (qc.warnings ++ [MANUAL_REVIEW_WARNING])
        let qc' : QCResult := ⟨false, false, warnings⟩
        (none, updateTask store tid
          { task with
            annot := some ⟨payload.annotator, payload.smiles, payload.mol,
              canonical, molblock, qc', now⟩
            status := .SUBMITTED })
      else if !qc.rdkit_parse_ok then (some .invalidState, store)
      else if !qc.sanitize_ok then (some .invalidState, store)
      else
        (none, updateTask store tid
          { task with
            annot := some ⟨payload.annotator, payload.smiles, payload.mol,
              canonical, molblock, qc, now⟩
            status := .SUBMITTED })

/-- `TaskStore.review_task` (storage.py:134-158). -/
def review_task (store : Store) (tid : String) (payload : ReviewRequest) (now : PyDateTime) :
    Option Err × Store :=
  match findTask store tid with
  | none => (some .notFound, store)
  | some task =>
    if task.status ≠ .SUBMITTED then (some .invalidState, store)
    else
      let blocked :=
        if payload.decision = .APPROVED then
          match task.annot with
          | none => true
          | some a =>
            !(a.qc.warnings.contains MANUAL_REVIEW_WARNING) &&
              !(a.qc.rdkit_parse_ok && a.qc.sanitize_ok)
        else false
      if blocked then (some .invalidState, store)
      else (none, updateTask store tid
        { task with
          review := some ⟨payload.reviewer, payload.decision, payload.comment, now⟩
          status := payload.decision })

/-! ## export (storage.py:160-193) -/

/-- The APPROVED subset, in store iteration order. -/
def approvedOf (store : Store) : List MolTask :=
  store.filter (fun t => t.status = .APPROVED)

/-- The body of the `smiles` export loop (storage.py:163-172), written as the
fold the Python `for`/`continue` loop performs on `lines`. -/
def smilesLinesLoop (approved : List MolTask) : List String :=
  approved.foldl (fun lines task =>
    match task.annot with
    | none => lines
    | some a =>
      if pyTruthy a.canonical_smiles then lines ++ [a.canonical_smiles.getD ("")]
      else if pyTruthy a.smiles && !(looks_like_structured_json a.smiles) then
        lines ++ [a.smiles.getD ("")]
      else lines) []

/-- The line an approved task contributes to the `smiles` export, as §4.4 of
the spec words it: the canonical string when present (Python truthiness:
non-null and non-empty), otherwise the raw submitted linear-notation text
unless that text is a structured-graph payload, otherwise nothing; a task
with no annotation contributes nothing. -/
def smilesLineSpec (t : MolTask) : Option String :=
  match t.annot with
  | none => none
  | some a =>
    if pyTruthy a.canonical_smiles then some (a.canonical_smiles.getD (""))
    else if pyTruthy a.smiles && !(looks_like_structured_json a.smiles) then
      some (a.smiles.getD (""))
    else none

/-! CSV writing: Python `csv.writer` with the default `excel` dialect —
delimiter `,`, quote char `"`, QUOTE_MINIMAL (quote a field iff it contains
the delimiter, the quote char, or a character of the `\r\n` line terminator),
quote chars doubled inside quoted fields, rows terminated by `\r\n`. -/

/-- Whether QUOTE_MINIMAL must quote the field. -/
def csvNeedsQuote (s : String) : Bool :=
  s.data.any (fun c => c = ',' || c = '"' || c = '\r' || c = '\n')

/-- Double each quote character. -/
def escapeChars : List Char → List Char
  | [] => []
  | c :: cs => if c = '"' then '"' :: '"' :: escapeChars cs else c :: escapeChars cs

/-- One encoded CSV field. -/
def csvFieldChars (s : String) : List Char :=
  if csvNeedsQuote s then '"' :: (escapeChars s.data ++ ['"']) else s.data

/-- One encoded CSV row (fields joined by the delimiter, no terminator). -/
def csvRowChars (fs : List String) : List Char :=
  (List.intersperse [','] (fs.map csvFieldChars)).flatten

/-- The writer's full output: every row followed by `\r\n`. -/
def csvText (rows : List (List String)) : List Char :=
  (rows.map (fun r => csvRowChars r ++ ['\r', '\n'])).flatten

/-- `str.rstrip("\r\n")`: drop trailing carriage returns and newlines. -/
def pyRstripCRLF (l : List Char) : List Char :=
  (l.reverse.dropWhile (fun c => c = '\r' || c = '\n')).reverse

/-- The CSV header row (storage.py:175). -/
def csvHeaders : List String :=
  [("id"), ("title"), ("canonical_smiles"), ("qc_warnings"), ("review_comment"), ("reviewed_at")]

/-- The six fields written for one approved task (storage.py:180-184),
including the Python `x or ""` coalescing. -/
def csvRecordOf (t : MolTask) : List String :=
  [t.id, t.title,
   (t.annot.bind (fun a => a.canonical_smiles)).getD (""),
   (t.annot.map (fun a => String.intercalate (";") a.qc.warnings)).getD (""),
   (t.review.bind (fun r => r.comment)).getD (""),
   (t.review.map (fun r => r.reviewed_at.isoformat)).getD ("")]

/-- The character stream `export("csv")` returns. -/
def csvExportChars (approved : List MolTask) : List Char :=
  pyRstripCRLF (csvText (csvHeaders :: approved.map csvRecordOf))

/-- `TaskStore.export` (storage.py:160-193): a read returning the text (or
`UnsupportedFormat`) and the untouched collection. -/
def exportStore (store : Store) (fmt : String) : Except Err String × Store :=
  let approved := approvedOf store
  (if fmt = "smiles" then
    .ok (String.intercalate ("\n") (smilesLinesLoop approved))
  else if fmt = "csv" then
    .ok (String.mk (csvExportChars approved))
  else if fmt = "sdf" then
    .ok (String.intercalate ("\n$$$$\n") (approved.filterMap (fun t =>
      match t.annot with
      | none => none
      | some a => if pyTruthy a.molblock then some (a.molblock.getD ("")) else none)))
  else .error .unsupportedFormat, store)

/-! ## schemas.py: ReviewRequest validation -/

/-- pydantic's enum validation for `TaskStatus`: the raw string must equal a
member's value exactly (no case folding). -/
def taskStatusOfString (s : String) : Option TaskStatus :=
  if s = "NEW" then some .NEW
  else if s = "IN_PROGRESS" then some .IN_PROGRESS
  else if s = "SUBMITTED" then some .SUBMITTED
  else if s = "APPROVED" then some .APPROVED
  else if s = "REJECTED" then some .REJECTED
  else none

/-- Validation of `ReviewRequest.decision` (schemas.py:128-138): enum
validation of the raw value, then `decision_must_be_final`.  `.error` is a
pydantic validation error raised before any store method runs. -/
def validate_review_decision (s : String) : Except String TaskStatus :=
  match taskStatusOfString s with
  | none => .error ("input should be a TaskStatus value")
  | some v =>
    if v = .APPROVED || v = .REJECTED then .ok v
    else .error ("decision must be APPROVED or REJECTED")

/-- The §4.2 field/status agreement table (the property claim C4 states). -/
def statusFieldsAgree (t : MolTask) : Bool :=
  match t.status with
  | .NEW => t.claimed_by.isNone && t.annot.isNone && t.review.isNone
  | .IN_PROGRESS => t.claimed_by.isSome && t.annot.isNone && t.review.isNone
  | .SUBMITTED => t.claimed_by.isSome && t.annot.isSome && t.review.isNone
  | .APPROVED => t.claimed_by.isSome && t.annot.isSome && t.review.isSome
  | .REJECTED => t.claimed_by.isSome && t.annot.isSome && t.review.isSome

/-! ## A conforming CSV reader

Modelled from the spec: "round-tripping through a conforming reader recovers
the original field verbatim" (§4.4).  This is the standard `excel`-dialect
reader: a field starting with a quote char is read until the closing quote,
with doubled quote chars read as one literal quote; any other field runs to
the next delimiter; fields are separated by `,`; records end at `\r\n` or at
the end of input. -/

/-- Record/field delimiters of the `excel` dialect. -/
def csvDelim (c : Char) : Bool :=
  c = ',' || c = '\r' || c = '\n'

/-- Read a quoted field body (the opening quote already consumed): returns
the decoded field and the text after the closing quote, or `none` for an
unterminated quote. -/
def parseQuotedF : List Char → Option (List Char × List Char)
  | [] => none
  | c :: rest =>
    if c = '"' then
      match rest with
      | [] => some ([], [])
      | c2 :: rest2 =>
        if c2 = '"' then (parseQuotedF rest2).map (fun p => ('"' :: p.1, p.2))
        else some ([], c2 :: rest2)
    else (parseQuotedF rest).map (fun p => (c :: p.1, p.2))

/-- Read an unquoted field: runs to the next delimiter or end of input. -/
def parseBareF : List Char → List Char × List Char
  | [] => ([], [])
  | c :: rest =>
    if csvDelim c then ([], c :: rest)
    else
      let p := parseBareF rest
      (c :: p.1, p.2)

/-- Read one field. -/
def parseFieldF : List Char → Option (List Char × List Char)
  | [] => some ([], [])
  | c :: rest =>
    if c = '"' then parseQuotedF rest
    else some (parseBareF (c :: rest))

/-- Read one record: fields joined by `,`, ended by `\r\n` or end of input.
`fuel` bounds the number of fields. -/
def parseRecordAux : Nat → List Char → Option (List String × List Char)
  | 0, _ => none
  | fuel + 1, cs =>
    match parseFieldF cs with
    | none => none
    | some p =>
      match p.2 with
      | ',' :: r2 => (parseRecordAux fuel r2).map (fun q => (String.mk p.1 :: q.1, q.2))
      | '\r' :: '\n' :: r2 => some ([String.mk p.1], r2)
      | [] => some ([String.mk p.1], [])
      | _ => none

/-- Read all records until the input is exhausted. -/
def parseCsvAux : Nat → List Char → Option (List (List String))
  | 0, _ => none
  | _ + 1, [] => some []
  | fuel + 1, cs =>
    match parseRecordAux (cs.length + 1) cs with
    | none => none
    | some p => (parseCsvAux fuel p.2).map (fun rs => p.1 :: rs)

/-- The conforming reader. -/
def parseCsv (s : String) : Option (List (List String)) :=
  parseCsvAux (s.data.length + 1) s.data

/-- The records separated (but not terminated) by `\r\n`: what the writer's
output looks like after the trailing `rstrip`. -/
def joinedChars (rows : List (List String)) : List Char :=
  (List.intersperse ['\r', '\n'] (rows.map csvRowChars)).flatten

/-- The last character (if any) is not part of a record terminator. -/
def noCrlfLast (l : List Char) : Prop :=
  ∀ c, l.getLast? = some c → c ≠ '\r' ∧ c ≠ '\n'

/-! ## Concrete stores and engines used by witnesses and counterexamples -/

/-- An engine for which nothing parses: exercises the QC failure paths
without importing any chemistry. -/
def trivEngine : Engine Unit :=
  ⟨fun _ => none, fun _ => none, fun _ => (false, none),
   fun _ => .error (""), fun _ => .error ("")⟩

/-- An engine that parses every input: if `build_molecule` consults its
SMILES routine at all, the result molecule is `some`. -/
def alwaysParseEngine : Engine Unit :=
  ⟨fun _ => some (), fun _ => some (), fun _ => (true, none),
   fun _ => .ok (""), fun _ => .ok ("")⟩

/-- A structure-editor JSON payload (starts with a brace, carries the
`"atoms"` marker). -/
def jsonDemo : String :=
  "\x7b\"atoms\": []\x7d"

/-- Marker-bearing text that does not start with a brace and contains the
molblock end tag. -/
def mEndMarkerText : String :=
  "\"atoms\" M  END"

/-- Marker-bearing text that neither starts with a brace nor contains the
molblock end tag. -/
def markerNoBrace : String :=
  "x \"bonds\" y"

/-- A freshly created task. -/
def taskNew : MolTask :=
  { id := "t1", title := "T", status := .NEW, source := ⟨some ("CC"), none⟩ }

/-- A store holding one NEW task. -/
def storeNew : Store :=
  [taskNew]

/-- The task after a successful claim by alice. -/
def taskInProg : MolTask :=
  { id := "t1", title := "T", status := .IN_PROGRESS, source := ⟨some ("CC"), none⟩,
    claimed_by := some ("alice"), claimed_at := some ⟨0⟩ }

/-- A store holding one IN_PROGRESS task claimed by alice. -/
def storeInProg : Store :=
  [taskInProg]

/-- A QC outcome in which parsing failed and no manual-review marker is set. -/
def qcFailDemo : QCResult :=
  ⟨false, false, [("smiles_parse_failed")]⟩

/-- An annotation carrying the failed QC outcome. -/
def annotFail : Annot :=
  ⟨("alice"), some ("C1CC"), none, none, none, qcFailDemo, ⟨1⟩⟩

/-- A SUBMITTED task whose annotation failed QC without the manual marker. -/
def taskSubmittedBad : MolTask :=
  { id := "t1", title := "T", status := .SUBMITTED, source := ⟨some ("CC"), none⟩,
    claimed_by := some ("alice"), claimed_at := some ⟨0⟩, annot := some annotFail }

/-- A store holding that SUBMITTED task. -/
def storeSubmittedBad : Store :=
  [taskSubmittedBad]

/-- A review comment containing a comma, quote chars, a newline and a
carriage return. -/
def nastyComment : String :=
  "a,b\n\"q\"\r end"

/-- A review carrying the nasty comment. -/
def reviewNasty : Review :=
  ⟨("bob"), .APPROVED, some nastyComment, ⟨7⟩⟩

/-- A clean annotation with a canonical string. -/
def annotOkDemo : Annot :=
  ⟨("alice"), some ("CC"), none, some ("CC"), some ("MB"), ⟨true, true, []⟩, ⟨1⟩⟩

/-- An APPROVED task whose review comment needs CSV escaping. -/
def taskApprovedDemo : MolTask :=
  { id := "t1", title := "T", status := .APPROVED, source := ⟨some ("CC"), none⟩,
    claimed_by := some ("alice"), claimed_at := some ⟨0⟩, annot := some annotOkDemo,
    review := some reviewNasty }

/-- A store holding that APPROVED task. -/
def storeApprovedDemo : Store :=
  [taskApprovedDemo]

/-! ## Guard-failure lemmas (shared by several claims) -/

theorem claim_task_not_new (store : Store) (tid : String) (req : ClaimRequest)
    (now : PyDateTime) (task : MolTask) (hfind : findTask store tid = some task)
    (h : task.status ≠ .NEW) :
    claim_task store tid req now = (some .invalidState, store) := by
  simp only [claim_task, hfind]
  rw [if_pos h]

theorem submit_annot_guard_fail {Mol : Type} (eng : Engine Mol) (store : Store)
    (tid : String) (req : SubmitRequest) (now : PyDateTime) (task : MolTask)
    (hfind : findTask store tid = some task)
    (h : task.status ≠ .IN_PROGRESS ∨ pyTruthy task.claimed_by = false ∨
      task.claimed_by ≠ some req.annotator ∨
      (((looks_like_structured_json req.smiles && !(pyTruthy req.mol)) &&
          !((parse_and_qc eng req.smiles req.mol).1.rdkit_parse_ok)) = false ∧
        ((parse_and_qc eng req.smiles req.mol).1.rdkit_parse_ok = false ∨
          (parse_and_qc eng req.smiles req.mol).1.sanitize_ok = false))) :
    submit_annot eng store tid req now = (some .invalidState, store) := by
  simp only [submit_annot, hfind]
  by_cases h1 : task.status ≠ .IN_PROGRESS
  · rw [if_pos h1]
  · rw [if_neg h1]
    by_cases h2 : pyTruthy task.claimed_by = false
    · rw [if_pos (by simp [h2])]
    · rw [if_neg (by simp at h2; simp [h2])]
      by_cases h3 : task.claimed_by ≠ some req.annotator
      · rw [if_pos h3]
      · rw [if_neg h3]
        have h2' : pyTruthy task.claimed_by = true := by
          cases hv : pyTruthy task.claimed_by
          · exact absurd hv h2
          · rfl
        rcases h with hc | hc | hc | ⟨h4, h5⟩
        · exact absurd hc h1
        · exact absurd hc (by simp [h2'])
        · exact absurd hc h3
        · rw [if_neg (by simp [h4])]
          cases hp : (parse_and_qc eng req.smiles req.mol).1.rdkit_parse_ok
          · rw [if_pos (by simp [hp])]
          · have hs : (parse_and_qc eng req.smiles req.mol).1.sanitize_ok = false := by
              rcases h5 with h5 | h5
              · rw [hp] at h5; cases h5
              · exact h5
            rw [if_neg (by simp [hp])]
            rw [if_pos (by simp [hs])]

theorem review_task_guard_fail (store : Store) (tid : String) (req : ReviewRequest)
    (now : PyDateTime) (task : MolTask) (hfind : findTask store tid = some task)
    (h : task.status ≠ .SUBMITTED ∨
      (req.decision = .APPROVED ∧
        (task.annot = none ∨ ∃ a, task.annot = some a ∧
          MANUAL_REVIEW_WARNING ∉ a.qc.warnings ∧
          ¬(a.qc.rdkit_parse_ok = true ∧ a.qc.sanitize_ok = true)))) :
    review_task store tid req now = (some .invalidState, store) := by
  simp only [review_task, hfind]
  by_cases h1 : task.status ≠ .SUBMITTED
  · rw [if_pos h1]
  · rw [if_neg h1]
    rcases h with hc | ⟨hdec, hann⟩
    · exact absurd hc h1
    · have hblocked :
        (if req.decision = .APPROVED then
          match task.annot with
          | none => true
          | some a =>
            !(a.qc.warnings.contains MANUAL_REVIEW_WARNING) &&
              !(a.qc.rdkit_parse_ok && a.qc.sanitize_ok)
          else false) = true := by
        rw [if_pos hdec]
        rcases hann with hnone | ⟨a, ha, hmem, hqc⟩
        · rw [hnone]
        · rw [ha]
          simp only [Bool.and_eq_true, Bool.not_eq_true', Bool.not_eq_false]
          constructor
          · cases hcont : a.qc.warnings.contains MANUAL_REVIEW_WARNING
            · rfl
            · exact absurd (by simpa [List.contains] using List.elem_iff.mp hcont) hmem
          · cases hp : a.qc.rdkit_parse_ok
            · rfl
            · cases hs : a.qc.sanitize_ok
              · rfl
              · exact absurd ⟨hp, hs⟩ hqc
      rw [if_pos hblocked]

/-- Claim C10: `list_tasks`, `get_task` and `export` never modify the task
collection, for every store and every argument; an unknown id yields
NotFound and an unsupported format yields UnsupportedFormat, both without
mutation. -/
theorem reads_leave_store_unchanged (store : Store) (tid fmt : String) :
    (list_tasks store).2 = store ∧
    (get_task store tid).2 = store ∧
    (exportStore store fmt).2 = store ∧
    (findTask store tid = none → (get_task store tid).1 = .error .notFound) ∧
    (fmt ≠ "smiles" → fmt ≠ "csv" → fmt ≠ "sdf" →
      (exportStore store fmt).1 = .error .unsupportedFormat) := by
  refine ⟨rfl, rfl, rfl, ?_, ?_⟩
  · intro h
    simp [get_task, h]
  · intro h1 h2 h3
    simp [exportStore, h1, h2, h3]

/-- Witness for C10 at a concrete store: the empty store with an unknown id
and an unsupported format. -/
theorem reads_leave_store_unchanged_witness :
    (get_task [] ("missing")).1 = .error .notFound ∧
    (exportStore [] ("xyz")).1 = .error .unsupportedFormat ∧
    (get_task [] ("missing")).2 = ([] : Store) ∧
    (exportStore [] ("xyz")).2 = ([] : Store) := by
  have h := reads_leave_store_unchanged [] ("missing") ("xyz")
  exact ⟨h.2.2.2.1 rfl, h.2.2.2.2 (by decide) (by decide) (by decide), h.2.1, h.2.2.1⟩

/-- Claim C8 (code behavior at the claim's inputs): `ReviewRequest.decision`
validation accepts only the exact enum values `APPROVED`/`REJECTED`; the
lowercase `approved` the claim (and the repository's own test
`test_review_accepts_lowercase_and_status_alias`) expects to be accepted is
rejected by the exact-value enum validation, while the other status names
are indeed rejected before the state machine runs. -/
theorem review_decision_exact_value_only :
    validate_review_decision ("approved") = .error ("input should be a TaskStatus value") ∧
    validate_review_decision ("APPROVED") = .ok .APPROVED ∧
    validate_review_decision ("REJECTED") = .ok .REJECTED ∧
    validate_review_decision ("NEW") = .error ("decision must be APPROVED or REJECTED") ∧
    validate_review_decision ("IN_PROGRESS") = .error ("decision must be APPROVED or REJECTED") ∧
    validate_review_decision ("SUBMITTED") = .error ("decision must be APPROVED or REJECTED") ∧
    validate_review_decision ("anything_else") = .error ("input should be a TaskStatus value") := by
  refine ⟨rfl, rfl, rfl, rfl, rfl, rfl, rfl⟩

/-- Claim C4 (code behavior at the failing input): the pydantic `Task` model
declares no `claimed_by` field, so under assignment semantics a claim on a
NEW task sets `status` and then fails, producing a reachable store whose
task is IN_PROGRESS with `claimed_by` absent — outside every legal row of
the §4.2 table. -/
theorem claim_task_pyd_breaks_field_agreement :
    (create_tasks [] [⟨("T"), some ("CC"), none⟩] [("t1")]).2 = storeNew ∧
    claim_task_pyd storeNew ("t1") ⟨("alice")⟩ ⟨0⟩ =
      (some .invalidState, [{ taskNew with status := .IN_PROGRESS }]) ∧
    statusFieldsAgree { taskNew with status := .IN_PROGRESS } = false ∧
    statusFieldsAgree taskNew = true := by
  refine ⟨rfl, by decide, rfl, rfl⟩

/-- Claim C5: whenever a guard of `claim_task`, `submit_annotation` or
`review_task` fails — wrong status, missing claimant, mismatched claimant,
or the submission/approval QC gate — the operation raises `InvalidState`
and the task collection is returned exactly as it was. -/
theorem guard_failures_leave_store_unchanged {Mol : Type} (eng : Engine Mol)
    (store : Store) (tid : String) (now : PyDateTime) :
    (∀ (creq : ClaimRequest) (task : MolTask), findTask store tid = some task →
      task.status ≠ .NEW → claim_task store tid creq now = (some .invalidState, store)) ∧
    (∀ (sreq : SubmitRequest) (task : MolTask), findTask store tid = some task →
      (task.status ≠ .IN_PROGRESS ∨ pyTruthy task.claimed_by = false ∨
        task.claimed_by ≠ some sreq.annotator ∨
        (((looks_like_structured_json sreq.smiles && !(pyTruthy sreq.mol)) &&
            !((parse_and_qc eng sreq.smiles sreq.mol).1.rdkit_parse_ok)) = false ∧
          ((parse_and_qc eng sreq.smiles sreq.mol).1.rdkit_parse_ok = false ∨
            (parse_and_qc eng sreq.smiles sreq.mol).1.sanitize_ok = false))) →
      submit_annot eng store tid sreq now = (some .invalidState, store)) ∧
    (∀ (rreq : ReviewRequest) (task : MolTask), findTask store tid = some task →
      (task.status ≠ .SUBMITTED ∨
        (rreq.decision = .APPROVED ∧
          (task.annot = none ∨ ∃ a, task.annot = some a ∧
            MANUAL_REVIEW_WARNING ∉ a.qc.warnings ∧
            ¬(a.qc.rdkit_parse_ok = true ∧ a.qc.sanitize_ok = true)))) →
      review_task store tid rreq now = (some .invalidState, store)) :=
  ⟨fun creq task hf h => claim_task_not_new store tid creq now task hf h,
   fun sreq task hf h => submit_annot_guard_fail eng store tid sreq now task hf h,
   fun rreq task hf h => review_task_guard_fail store tid rreq now task hf h⟩

/-- Witness for C5: a second claim on a non-NEW task, a submit on a
non-IN_PROGRESS task and a review on a non-SUBMITTED task each fail and
leave the concrete stores untouched. -/
theorem guard_failures_leave_store_unchanged_witness :
    claim_task storeSubmittedBad ("t1") ⟨("carol")⟩ ⟨9⟩ =
      (some .invalidState, storeSubmittedBad) ∧
    submit_annot trivEngine storeSubmittedBad ("t1") ⟨("alice"), some ("CC"), none⟩ ⟨9⟩ =
      (some .invalidState, storeSubmittedBad) ∧
    review_task storeInProg ("t1") ⟨("bob"), .APPROVED, none⟩ ⟨9⟩ =
      (some .invalidState, storeInProg) := by
  have h := guard_failures_leave_store_unchanged trivEngine storeSubmittedBad ("t1") ⟨9⟩
  have h2 := guard_failures_leave_store_unchanged trivEngine storeInProg ("t1") ⟨9⟩
  refine ⟨h.1 ⟨("carol")⟩ taskSubmittedBad (by decide) (by decide), ?_, ?_⟩
  · exact h.2.1 ⟨("alice"), some ("CC"), none⟩ taskSubmittedBad (by decide)
      (Or.inl (by decide))
  · exact h2.2.2 ⟨("bob"), .APPROVED, none⟩ taskInProg (by decide) (Or.inl (by decide))

/-- Claim C1: on a SUBMITTED task with an attached annotation, approving
succeeds exactly when the annotation's QC passed (`rdkit_parse_ok` and
`sanitize_ok`) or its warnings carry the manual-review marker; otherwise
`InvalidState` is raised and the collection is unchanged.  Rejecting has no
QC precondition: it attaches the review and sets status REJECTED. -/
theorem review_approval_qc_gate (store : Store) (tid : String) (task : MolTask)
    (a : Annot) (req : ReviewRequest) (now : PyDateTime)
    (hfind : findTask store tid = some task)
    (hstat : task.status = .SUBMITTED)
    (hann : task.annot = some a) :
    (req.decision = .APPROVED →
      (((review_task store tid req now).1 = none) ↔
        ((a.qc.rdkit_parse_ok = true ∧ a.qc.sanitize_ok = true) ∨
          MANUAL_REVIEW_WARNING ∈ a.qc.warnings)) ∧
      (¬((a.qc.rdkit_parse_ok = true ∧ a.qc.sanitize_ok = true) ∨
          MANUAL_REVIEW_WARNING ∈ a.qc.warnings) →
        review_task store tid req now = (some .invalidState, store))) ∧
    (req.decision = .REJECTED →
      review_task store tid req now =
        (none, updateTask store tid
          { task with
            review := some ⟨req.reviewer, .REJECTED, req.comment, now⟩
            status := .REJECTED })) := by
  have hstat' : ¬(task.status ≠ .SUBMITTED) := by simp [hstat]
  constructor
  · intro hdec
    by_cases hg : (a.qc.rdkit_parse_ok = true ∧ a.qc.sanitize_ok = true) ∨
        MANUAL_REVIEW_WARNING ∈ a.qc.warnings
    · have hsucc : review_task store tid req now =
          (none, updateTask store tid
            { task with
              review := some ⟨req.reviewer, req.decision, req.comment, now⟩
              status := req.decision }) := by
        rcases hg with ⟨hp, hs⟩ | hm
        · simp [review_task, hfind, hstat, hann, hdec, hp, hs]
        · have hc : a.qc.warnings.contains MANUAL_REVIEW_WARNING = true := by
            simpa [List.contains] using List.elem_iff.mpr hm
          simp [review_task, hfind, hstat, hann, hdec, hc]
          exact fun hq => absurd hm hq
      refine ⟨?_, fun hng => absurd hg hng⟩
      rw [hsucc]
      simpa using hg
    · have hfail := review_task_guard_fail store tid req now task hfind
        (Or.inr ⟨hdec, Or.inr ⟨a, hann, fun hm => hg (Or.inr hm),
          fun hpq => hg (Or.inl hpq)⟩⟩)
      refine ⟨?_, fun _ => hfail⟩
      rw [hfail]
      simp [hg]
  · intro hdec
    simp only [review_task, hfind]
    rw [if_neg hstat', hdec]
    simp

/-- Witness for C1: approving the concrete SUBMITTED task whose QC failed
without the marker is refused without mutation; rejecting the same task
succeeds and attaches the review. -/
theorem review_approval_qc_gate_witness :
    review_task storeSubmittedBad ("t1") ⟨("bob"), .APPROVED, none⟩ ⟨2⟩ =
      (some .invalidState, storeSubmittedBad) ∧
    review_task storeSubmittedBad ("t1") ⟨("bob"), .REJECTED, some ("no")⟩ ⟨2⟩ =
      (none, updateTask storeSubmittedBad ("t1")
        { taskSubmittedBad with
          review := some ⟨("bob"), .REJECTED, some ("no"), ⟨2⟩⟩
          status := .REJECTED }) := by
  have h := review_approval_qc_gate storeSubmittedBad ("t1") taskSubmittedBad annotFail
    ⟨("bob"), .APPROVED, none⟩ ⟨2⟩ (by decide) rfl rfl
  have h2 := review_approval_qc_gate storeSubmittedBad ("t1") taskSubmittedBad annotFail
    ⟨("bob"), .REJECTED, some ("no")⟩ ⟨2⟩ (by decide) rfl rfl
  exact ⟨(h.1 rfl).2 (by decide), h2.2 rfl⟩

/-- Claim C3: submitting non-structured-graph text on an IN_PROGRESS task
claimed by the submitting annotator is refused with `InvalidState`, and the
collection is unchanged, whenever the QC pipeline reports a parse or
sanitize failure. -/
theorem submit_qc_failure_rejected {Mol : Type} (eng : Engine Mol) (store : Store)
    (tid : String) (req : SubmitRequest) (now : PyDateTime) (task : MolTask)
    (hfind : findTask store tid = some task)
    (hstat : task.status = .IN_PROGRESS)
    (hclaim : task.claimed_by = some req.annotator)
    (hnotjson : looks_like_structured_json req.smiles = false)
    (hqc : (parse_and_qc eng req.smiles req.mol).1.rdkit_parse_ok = false ∨
      (parse_and_qc eng req.smiles req.mol).1.sanitize_ok = false) :
    submit_annot eng store tid req now = (some .invalidState, store) :=
  submit_annot_guard_fail eng store tid req now task hfind
    (Or.inr (Or.inr (Or.inr ⟨by simp [hnotjson], hqc⟩)))

/-- Witness for C3: with an engine that parses nothing, submitting plain
SMILES text on the claimed IN_PROGRESS task fails and the store is kept. -/
theorem submit_qc_failure_rejected_witness :
    submit_annot trivEngine storeInProg ("t1") ⟨("alice"), some ("CC"), none⟩ ⟨1⟩ =
      (some .invalidState, storeInProg) :=
  submit_qc_failure_rejected trivEngine storeInProg ("t1") ⟨("alice"), some ("CC"), none⟩
    ⟨1⟩ taskInProg (by decide) rfl rfl (by decide) (Or.inl (by decide))

theorem pyTruthy_some_of_ne {s : String} (h : s ≠ "") : pyTruthy (some s) = true := by
  have hd : s.data ≠ [] := by
    intro hdata
    exact h (by
      have hmk := congrArg String.mk hdata
      simpa using hmk)
  simp [pyTruthy, List.isEmpty_iff, hd]

/-- Claim C2, amended: submitting structured-graph JSON in the
linear-notation field of an IN_PROGRESS task claimed by the submitting
annotator, with NO block-notation text supplied, when the QC pipeline did
not parse it, is accepted: the task becomes SUBMITTED and the stored
QCResult's warnings are exactly the pipeline's warnings plus a single
manual-review marker, deduplicated keeping first occurrences. -/
theorem submit_structured_json_manual_review {Mol : Type} (eng : Engine Mol)
    (store : Store) (tid : String) (req : SubmitRequest) (now : PyDateTime)
    (task : MolTask)
    (hfind : findTask store tid = some task)
    (hstat : task.status = .IN_PROGRESS)
    (hclaim : task.claimed_by = some req.annotator)
    (hne : req.annotator ≠ "")
    (hjson : looks_like_structured_json req.smiles = true)
    (hmol : pyTruthy req.mol = false)
    (hparse : (parse_and_qc eng req.smiles req.mol).1.rdkit_parse_ok = false) :
    submit_annot eng store tid req now =
      (none, updateTask store tid
        { task with
          annot := some ⟨req.annotator, req.smiles, req.mol,
            (parse_and_qc eng req.smiles req.mol).2.1,
            (parse_and_qc eng req.smiles req.mol).2.2.1,
            ⟨false, false, dedupKeepFirst
              ((parse_and_qc eng req.smiles req.mol).1.warnings ++
                [MANUAL_REVIEW_WARNING])⟩,
            now⟩
          status := .SUBMITTED }) := by
  have ht : pyTruthy (some req.annotator) = true := pyTruthy_some_of_ne hne
  simp [submit_annot, hfind, hstat, hclaim, ht, hjson, hmol, hparse]

/-- Counterexample to Claim C2 as stated: the very same structured-graph
linear text, with an unparsable block-notation text also supplied, satisfies
the claim's premises (the text is a structured payload and the pipeline did
not parse) yet the submission is REJECTED, because the code additionally
requires the block-notation field to be absent for manual-review mode. -/
theorem submit_structured_json_with_molblock_rejected :
    looks_like_structured_json (some jsonDemo) = true ∧
    (parse_and_qc trivEngine (some jsonDemo) (some ("X"))).1.rdkit_parse_ok = false ∧
    findTask storeInProg ("t1") = some taskInProg ∧
    taskInProg.status = .IN_PROGRESS ∧
    taskInProg.claimed_by = some ("alice") ∧
    submit_annot trivEngine storeInProg ("t1") ⟨("alice"), some jsonDemo, some ("X")⟩ ⟨1⟩ =
      (some .invalidState, storeInProg) := by
  decide

/-- Witness for the amended C2 at a concrete input: the JSON payload with no
block text is accepted, stored under status SUBMITTED with the deduplicated
manual-review warnings. -/
theorem submit_structured_json_manual_review_witness :
    submit_annot trivEngine storeInProg ("t1") ⟨("alice"), some jsonDemo, none⟩ ⟨1⟩ =
      (none, updateTask storeInProg ("t1")
        { taskInProg with
          annot := some ⟨("alice"), some jsonDemo, none,
            (parse_and_qc trivEngine (some jsonDemo) none).2.1,
            (parse_and_qc trivEngine (some jsonDemo) none).2.2.1,
            ⟨false, false, dedupKeepFirst
              ((parse_and_qc trivEngine (some jsonDemo) none).1.warnings ++
                [MANUAL_REVIEW_WARNING])⟩,
            ⟨1⟩⟩
          status := .SUBMITTED }) :=
  submit_structured_json_manual_review trivEngine storeInProg ("t1")
    ⟨("alice"), some jsonDemo, none⟩ ⟨1⟩ taskInProg (by decide) rfl rfl
    (by decide) (by decide) (by decide) (by decide)


theorem smilesLinesLoop_eq (l : List MolTask) :
    smilesLinesLoop l = l.filterMap smilesLineSpec := by
  have key : ∀ (l : List MolTask) (acc : List String),
      l.foldl (fun lines task =>
        match task.annot with
        | none => lines
        | some a =>
          if pyTruthy a.canonical_smiles then lines ++ [a.canonical_smiles.getD ("")]
          else if pyTruthy a.smiles && !(looks_like_structured_json a.smiles) then
            lines ++ [a.smiles.getD ("")]
          else lines) acc = acc ++ l.filterMap smilesLineSpec := by
    intro l
    induction l with
    | nil =>
      intro acc
      simp
    | cons t ts ih =>
      intro acc
      rw [List.foldl_cons, List.filterMap_cons]
      simp only [smilesLineSpec]
      cases hann : t.annot with
      | none =>
        simp only [hann]
        exact ih acc
      | some a =>
        simp only [hann]
        by_cases h1 : pyTruthy a.canonical_smiles = true
        · rw [if_pos h1, if_pos h1, ih]
          simp
        · rw [if_neg h1, if_neg h1]
          by_cases h2 : (pyTruthy a.smiles && !(looks_like_structured_json a.smiles)) = true
          · rw [if_pos h2, if_pos h2, ih]
            simp
          · rw [if_neg h2, if_neg h2]
            exact ih acc
  simpa [smilesLinesLoop] using key l []

/-- Claim C6: the `smiles` export emits, in store order, one line per
APPROVED task as `smilesLineSpec` describes — the canonical string when
present (Python truthiness), else the raw submitted linear text unless it is
a structured-graph payload, else nothing; a task with neither, or with no
annotation, contributes no line — and the output is independent of every
task's original pre-annotation `source` field, so no silent fallback to the
source text can occur. -/
theorem export_smiles_characterization (store : Store) :
    (exportStore store ("smiles")).1 =
      .ok (String.intercalate ("\n") ((approvedOf store).filterMap smilesLineSpec)) ∧
    (∀ g : MolTask → TaskSource,
      (exportStore (store.map (fun t => { t with source := g t })) ("smiles")).1 =
        (exportStore store ("smiles")).1) := by
  constructor
  · simp [exportStore, smilesLinesLoop_eq]
  · intro g
    have h1 : approvedOf (store.map (fun t => { t with source := g t })) =
        (approvedOf store).map (fun t => { t with source := g t }) := by
      simp only [approvedOf]
      rw [List.filter_map]
      rfl
    have h2 : ((approvedOf store).map (fun t => { t with source := g t })).filterMap
        smilesLineSpec = (approvedOf store).filterMap smilesLineSpec := by
      rw [List.filterMap_map]
      rfl
    simp [exportStore, smilesLinesLoop_eq, h1, h2]

theorem marker_ne_nil : ∀ m ∈ jsonMarkers, m.data ≠ [] := by
  decide

/-- Claim C9, amended: a linear-notation text is classified as a
structured-graph payload iff, after stripping surrounding whitespace, it is
non-empty, begins with a brace, and contains one of the six quoted markers;
text that contains a marker but does not begin with a brace is never
classified as structured and — unless it contains the molblock end tag
`M  END`, in which case it is flagged `smiles_format_invalid` instead — is
handed to the engine's linear-notation routine on the whitespace-stripped
text. -/
theorem structured_json_detection :
    (∀ v : Option String, looks_like_structured_json v = true ↔
      ∃ s, v = some s ∧ (pyStrip s).data ≠ [] ∧
        strStartsWith (pyStrip s) ("\x7b") = true ∧
        ∃ m ∈ jsonMarkers, strContains (pyStrip s) m = true) ∧
    (∀ s : String, (∃ m ∈ jsonMarkers, strContains (pyStrip s) m = true) →
      strStartsWith (pyStrip s) ("\x7b") = false →
      strContains (pyStrip s) ("M  END") = false →
      looks_like_structured_json (some s) = false ∧
      smilesRoute (some s) = .engineParse (stripAllWs s) ∧
      ∀ (Mol : Type) (eng : Engine Mol),
        (build_molecule eng (some s) none).mol = eng.parseSmiles (stripAllWs s)) := by
  constructor
  · intro v
    cases v with
    | none => simp [looks_like_structured_json]
    | some s =>
      cases he : (pyStrip s).data.isEmpty with
      | true => simp [looks_like_structured_json, he, List.isEmpty_iff.mp he]
      | false =>
        cases hs : strStartsWith (pyStrip s) ("\x7b") with
        | false => simp [looks_like_structured_json, he, hs]
        | true =>
          have hne : (pyStrip s).data ≠ [] := by
            intro hd
            rw [hd] at he
            simp at he
          simp [looks_like_structured_json, he, hs, hne, List.any_eq_true]
  · intro s hm hstart hmend
    obtain ⟨m, hmem, hcont⟩ := hm
    have hne : (pyStrip s).data ≠ [] := by
      intro hd
      rw [strContains, hd] at hcont
      simp only [List.tails, List.any_cons, List.any_nil, Bool.or_false] at hcont
      cases hml : m.data with
      | nil => exact marker_ne_nil m hmem hml
      | cons c cs =>
        rw [hml] at hcont
        simp [List.isPrefixOf] at hcont
    have hsd : s.data ≠ [] := by
      intro hd
      exact hne (by simp [pyStrip, pyStripChars, hd])
    have hlooks : looks_like_structured_json (some s) = false := by
      simp [looks_like_structured_json, hstart]
    have hsmiles : looks_like_smiles s = true := by
      simp [looks_like_smiles, List.isEmpty_iff, hne, hmend]
    have hroute : smilesRoute (some s) = .engineParse (stripAllWs s) := by
      simp [smilesRoute, pyTruthy, List.isEmpty_iff, hsd, hlooks, hsmiles]
    refine ⟨hlooks, hroute, ?_⟩
    intro Mol eng
    cases hp : eng.parseSmiles (stripAllWs s) <;>
      simp [build_molecule, hroute, hp, Option.orElse, pyTruthy]

/-- Counterexample to Claim C9 as stated: this text contains the `"atoms"`
marker and does not begin with a brace, so the claim says it is handed to
the linear-notation parser; but it contains `M  END`, so `build_molecule`
flags it `smiles_format_invalid` and never consults the engine — even an
engine that parses every input yields no molecule here. -/
theorem marker_text_not_handed_to_engine :
    strContains (pyStrip mEndMarkerText) ("\"atoms\"") = true ∧
    strStartsWith (pyStrip mEndMarkerText) ("\x7b") = false ∧
    looks_like_structured_json (some mEndMarkerText) = false ∧
    smilesRoute (some mEndMarkerText) = .formatInvalid ∧
    (build_molecule alwaysParseEngine (some mEndMarkerText) none).mol = none ∧
    (build_molecule alwaysParseEngine (some mEndMarkerText) none).warnings =
      [("smiles_format_invalid")] := by
  decide

/-- Witness for the amended C9 at a concrete input: marker-bearing text
without a leading brace and without `M  END` reaches the engine's
linear-notation routine. -/
theorem structured_json_detection_witness :
    looks_like_structured_json (some markerNoBrace) = false ∧
    smilesRoute (some markerNoBrace) = .engineParse (stripAllWs markerNoBrace) ∧
    (build_molecule alwaysParseEngine (some markerNoBrace) none).mol =
      alwaysParseEngine.parseSmiles (stripAllWs markerNoBrace) := by
  have h := structured_json_detection.2 markerNoBrace
    ⟨("\"bonds\""), by decide, by decide⟩ (by decide) (by decide)
  exact ⟨h.1, h.2.1, h.2.2 Unit alwaysParseEngine⟩

/-! ## CSV round-trip lemmas -/

theorem parseBareF_spec (f : List Char) (rest : List Char)
    (hf : ∀ c ∈ f, csvDelim c = false)
    (hr : rest = [] ∨ ∃ d r', rest = d :: r' ∧ csvDelim d = true) :
    parseBareF (f ++ rest) = (f, rest) := by
  induction f with
  | nil =>
    rcases hr with rfl | ⟨d, r', rfl, hd⟩
    · simp [parseBareF]
    · simp [parseBareF, hd]
  | cons c cs ih =>
    have hc := hf c (by simp)
    have ih' := ih (fun x hx => hf x (by simp [hx]))
    simp [parseBareF, hc, ih']

theorem parseQuotedF_spec (f : List Char) (rest : List Char)
    (hr : rest = [] ∨ ∃ d r', rest = d :: r' ∧ d ≠ '"') :
    parseQuotedF (escapeChars f ++ ('"' :: rest)) = some (f, rest) := by
  induction f with
  | nil =>
    rcases hr with rfl | ⟨d, r', rfl, hd⟩
    · simp [escapeChars, parseQuotedF]
    · simp [escapeChars, parseQuotedF, hd]
  | cons c cs ih =>
    by_cases hc : c = '"'
    · subst hc
      simp [escapeChars, parseQuotedF, ih]
    · rw [show escapeChars (c :: cs) ++ ('"' :: rest) =
        c :: (escapeChars cs ++ ('"' :: rest)) from by simp [escapeChars, hc]]
      rw [parseQuotedF.eq_def]
      simp [hc, ih]

theorem parseFieldF_spec (s : String) (rest : List Char)
    (hr : rest = [] ∨ (∃ r', rest = ',' :: r') ∨ (∃ r', rest = '\r' :: r')) :
    parseFieldF (csvFieldChars s ++ rest) = some (s.data, rest) := by
  have hrq : rest = [] ∨ ∃ d r', rest = d :: r' ∧ d ≠ '"' := by
    rcases hr with rfl | ⟨r', rfl⟩ | ⟨r', rfl⟩
    · exact Or.inl rfl
    · exact Or.inr ⟨',', r', rfl, by decide⟩
    · exact Or.inr ⟨'\r', r', rfl, by decide⟩
  have hrd : rest = [] ∨ ∃ d r', rest = d :: r' ∧ csvDelim d = true := by
    rcases hr with rfl | ⟨r', rfl⟩ | ⟨r', rfl⟩
    · exact Or.inl rfl
    · exact Or.inr ⟨',', r', rfl, by decide⟩
    · exact Or.inr ⟨'\r', r', rfl, by decide⟩
  by_cases hq : csvNeedsQuote s = true
  · rw [csvFieldChars, if_pos hq]
    rw [show ('"' :: (escapeChars s.data ++ ['"'])) ++ rest =
      '"' :: (escapeChars s.data ++ ('"' :: rest)) from by simp]
    simp only [parseFieldF]
    rw [if_pos trivial]
    exact parseQuotedF_spec s.data rest hrq
  · have hq' : csvNeedsQuote s = false := by
      cases h : csvNeedsQuote s
      · rfl
      · exact absurd h hq
    have hnd : ∀ c ∈ s.data, csvDelim c = false ∧ c ≠ '"' := by
      intro c hcm
      have h := (List.any_eq_false.mp hq') c hcm
      simp only [Bool.not_eq_true, Bool.or_eq_false_iff, decide_eq_false_iff_not] at h
      obtain ⟨⟨⟨h1, h2⟩, h3⟩, h4⟩ := h
      refine ⟨?_, h2⟩
      simp [csvDelim, h1, h3, h4]
    rw [csvFieldChars, if_neg (by simp [hq'])]
    cases hsd : s.data with
    | nil =>
      rcases hr with rfl | ⟨r', rfl⟩ | ⟨r', rfl⟩
      · simp [parseFieldF]
      · simp [parseFieldF, parseBareF, csvDelim]
      · simp [parseFieldF, parseBareF, csvDelim]
    | cons c0 cs0 =>
      have hc0 : csvDelim c0 = false ∧ c0 ≠ '"' := hnd c0 (by simp [hsd])
      have hbare := parseBareF_spec s.data rest (fun c h => (hnd c h).1) hrd
      rw [hsd] at hbare
      rw [List.cons_append]
      simp only [parseFieldF]
      rw [if_neg hc0.2]
      rw [← List.cons_append, hbare]

theorem csvRowChars_single (s : String) : csvRowChars [s] = csvFieldChars s := by
  simp [csvRowChars]

theorem csvRowChars_cons (s t : String) (ts : List String) :
    csvRowChars (s :: t :: ts) = csvFieldChars s ++ (',' :: csvRowChars (t :: ts)) := by
  simp [csvRowChars, List.intersperse_cons_cons]

theorem csvRowChars_length (fs : List String) (s : String) :
    fs.length + 1 ≤ (csvRowChars (s :: fs)).length + 1 := by
  induction fs generalizing s with
  | nil => simp
  | cons t ts ih =>
    have h := ih t
    rw [csvRowChars_cons s t ts]
    simp only [List.length_append, List.length_cons] at h ⊢
    omega

theorem csvRowChars_ne_nil (s t : String) (ts : List String) :
    csvRowChars (s :: t :: ts) ≠ [] := by
  rw [csvRowChars_cons s t ts]
  simp

theorem parseRecordAux_term (fs : List String) (s : String) :
    ∀ (fuel : Nat), fs.length + 1 ≤ fuel → ∀ rest : List Char,
      parseRecordAux fuel (csvRowChars (s :: fs) ++ ('\r' :: '\n' :: rest)) =
        some (s :: fs, rest) := by
  induction fs generalizing s with
  | nil =>
    intro fuel hfuel rest
    obtain ⟨k, rfl⟩ : ∃ k, fuel = k + 1 := ⟨fuel - 1, by omega⟩
    rw [csvRowChars_single]
    simp only [parseRecordAux]
    rw [parseFieldF_spec s ('\r' :: '\n' :: rest) (Or.inr (Or.inr ⟨'\n' :: rest, rfl⟩))]
    rfl
  | cons t ts ih =>
    intro fuel hfuel rest
    obtain ⟨k, rfl⟩ : ∃ k, fuel = k + 1 := ⟨fuel - 1, by omega⟩
    rw [csvRowChars_cons s t ts, List.append_assoc, List.cons_append]
    simp only [parseRecordAux]
    rw [parseFieldF_spec s (',' :: (csvRowChars (t :: ts) ++ ('\r' :: '\n' :: rest)))
      (Or.inr (Or.inl ⟨_, rfl⟩))]
    have hih := ih t k (by simpa using hfuel) rest
    simp [hih]

theorem parseRecordAux_end (fs : List String) (s : String) :
    ∀ (fuel : Nat), fs.length + 1 ≤ fuel →
      parseRecordAux fuel (csvRowChars (s :: fs)) = some (s :: fs, []) := by
  induction fs generalizing s with
  | nil =>
    intro fuel hfuel
    obtain ⟨k, rfl⟩ : ∃ k, fuel = k + 1 := ⟨fuel - 1, by omega⟩
    rw [csvRowChars_single]
    simp only [parseRecordAux]
    have hf := parseFieldF_spec s [] (Or.inl rfl)
    rw [List.append_nil] at hf
    rw [hf]
  | cons t ts ih =>
    intro fuel hfuel
    obtain ⟨k, rfl⟩ : ∃ k, fuel = k + 1 := ⟨fuel - 1, by omega⟩
    rw [csvRowChars_cons s t ts]
    simp only [parseRecordAux]
    rw [parseFieldF_spec s (',' :: csvRowChars (t :: ts)) (Or.inr (Or.inl ⟨_, rfl⟩))]
    have hih := ih t k (by simpa using hfuel)
    simp [hih]

theorem csvFieldChars_noCrlfLast (s : String) : noCrlfLast (csvFieldChars s) := by
  intro c hc
  by_cases hq : csvNeedsQuote s = true
  · rw [csvFieldChars, if_pos hq] at hc
    rw [show ('"' :: (escapeChars s.data ++ ['"'])) = ('"' :: escapeChars s.data) ++ ['"']
      from by simp] at hc
    rw [List.getLast?_concat] at hc
    cases hc
    exact ⟨by decide, by decide⟩
  · have hq' : csvNeedsQuote s = false := by
      cases h : csvNeedsQuote s
      · rfl
      · exact absurd h hq
    rw [csvFieldChars, if_neg (by simp [hq'])] at hc
    have hmem := List.mem_of_getLast?_eq_some hc
    have h := (List.any_eq_false.mp hq') c hmem
    simp only [Bool.not_eq_true, Bool.or_eq_false_iff, decide_eq_false_iff_not] at h
    exact ⟨h.1.2, h.2⟩

theorem csvRowChars_noCrlfLast (fs : List String) (s : String) :
    noCrlfLast (csvRowChars (s :: fs)) := by
  induction fs generalizing s with
  | nil =>
    rw [csvRowChars_single]
    exact csvFieldChars_noCrlfLast s
  | cons t ts ih =>
    intro c hc
    rw [csvRowChars_cons s t ts,
      List.getLast?_append_of_ne_nil (csvFieldChars s) (by simp)] at hc
    cases hrow : csvRowChars (t :: ts) with
    | nil =>
      rw [hrow] at hc
      simp only [List.getLast?_singleton, Option.some.injEq] at hc
      subst hc
      exact ⟨by decide, by decide⟩
    | cons x xs =>
      rw [hrow, List.getLast?_cons_cons] at hc
      exact ih t c (by rw [hrow]; exact hc)

theorem csvText_eq (rows : List (List String)) (hne : rows ≠ []) :
    csvText rows = joinedChars rows ++ ['\r', '\n'] := by
  induction rows with
  | nil => exact absurd rfl hne
  | cons r rs ih =>
    cases rs with
    | nil => simp [csvText, joinedChars]
    | cons r2 rs2 =>
      have ih' := ih (by simp)
      have h1 : csvText (r :: r2 :: rs2) = (csvRowChars r ++ ['\r', '\n']) ++
          csvText (r2 :: rs2) := by
        simp [csvText]
      have h2 : joinedChars (r :: r2 :: rs2) = csvRowChars r ++ ('\r' :: '\n' ::
          joinedChars (r2 :: rs2)) := by
        simp [joinedChars, List.intersperse_cons_cons]
      rw [h1, h2, ih']
      simp

theorem pyRstripCRLF_append_crlf (X : List Char) (hX : X ≠ [])
    (hlast : noCrlfLast X) :
    pyRstripCRLF (X ++ ['\r', '\n']) = X := by
  rw [pyRstripCRLF, List.reverse_append]
  have h1 : (['\r', '\n'] : List Char).reverse = ['\n', '\r'] := by decide
  rw [h1]
  cases hxr : X.reverse with
  | nil => exact absurd (by simpa using hxr) hX
  | cons c rest =>
    have hcl : X.getLast? = some c := by
      rw [← List.head?_reverse, hxr]
      rfl
    have hc := hlast c hcl
    have hpc : (decide (c = '\r') || decide (c = '\n')) = false := by
      simp [hc.1, hc.2]
    have hstep : List.dropWhile (fun c => c = '\r' || c = '\n')
        ((['\n', '\r'] : List Char) ++ c :: rest) =
        List.dropWhile (fun c => c = '\r' || c = '\n') (c :: rest) := by
      simp [List.dropWhile_cons]
    rw [hstep, List.dropWhile_cons]
    simp only [hpc]
    simp [← hxr]

theorem pyRstripCRLF_prepend (A B : List Char) (hB : pyRstripCRLF B ≠ []) :
    pyRstripCRLF (A ++ B) = A ++ pyRstripCRLF B := by
  have hdw : (B.reverse.dropWhile (fun c => c = '\r' || c = '\n')) ≠ [] := by
    intro h
    rw [pyRstripCRLF, h] at hB
    exact hB rfl
  rw [pyRstripCRLF, List.reverse_append, List.dropWhile_append,
    if_neg (by simpa [List.isEmpty_iff] using hdw)]
  rw [List.reverse_append, List.reverse_reverse]
  rfl

theorem joinedChars_ne_nil (r : List String) (rs : List (List String))
    (hr : ∃ s t ts, r = s :: t :: ts) :
    joinedChars (r :: rs) ≠ [] := by
  obtain ⟨s, t, ts, rfl⟩ := hr
  have hrow := csvRowChars_ne_nil s t ts
  cases rs with
  | nil => simpa [joinedChars] using hrow
  | cons r2 rs2 =>
    have h : joinedChars ((s :: t :: ts) :: r2 :: rs2) = csvRowChars (s :: t :: ts) ++
        ('\r' :: '\n' :: joinedChars (r2 :: rs2)) := by
      simp [joinedChars, List.intersperse_cons_cons]
    rw [h]
    simp

theorem pyRstrip_csvText (rows : List (List String))
    (h : ∀ r ∈ rows, ∃ s t ts, r = s :: t :: ts) (hne : rows ≠ []) :
    pyRstripCRLF (csvText rows) = joinedChars rows := by
  induction rows with
  | nil => exact absurd rfl hne
  | cons r rs ih =>
    obtain ⟨s, t, ts, hreq⟩ := h r (by simp)
    cases rs with
    | nil =>
      have h1 : csvText [r] = csvRowChars r ++ ['\r', '\n'] := by
        simp [csvText]
      rw [h1, hreq]
      rw [pyRstripCRLF_append_crlf (csvRowChars (s :: t :: ts)) (csvRowChars_ne_nil s t ts)
        (csvRowChars_noCrlfLast (t :: ts) s)]
      simp [joinedChars]
    | cons r2 rs2 =>
      have ih' := ih (fun x hx => h x (by simp [hx])) (by simp)
      have hstep : csvText (r :: r2 :: rs2) = (csvRowChars r ++ ['\r', '\n']) ++
          csvText (r2 :: rs2) := by
        simp [csvText]
      have hjoinne : joinedChars (r2 :: rs2) ≠ [] :=
        joinedChars_ne_nil r2 rs2 (h r2 (by simp))
      rw [hstep, pyRstripCRLF_prepend (csvRowChars r ++ ['\r', '\n']) (csvText (r2 :: rs2))
        (by rw [ih']; exact hjoinne), ih']
      have hj : joinedChars (r :: r2 :: rs2) = csvRowChars r ++
          ('\r' :: '\n' :: joinedChars (r2 :: rs2)) := by
        simp [joinedChars, List.intersperse_cons_cons]
      rw [hj]
      simp

theorem joinedChars_length (rows : List (List String))
    (h : ∀ r ∈ rows, ∃ s t ts, r = s :: t :: ts) :
    rows.length ≤ (joinedChars rows).length := by
  induction rows with
  | nil => simp
  | cons r rs ih =>
    obtain ⟨s, t, ts, hreq⟩ := h r (by simp)
    cases rs with
    | nil =>
      have : joinedChars [r] = csvRowChars r := by simp [joinedChars]
      rw [this, hreq]
      have := csvRowChars_ne_nil s t ts
      have := List.length_pos.mpr this
      simpa using this
    | cons r2 rs2 =>
      have ih' := ih (fun x hx => h x (by simp [hx]))
      have hj : joinedChars (r :: r2 :: rs2) = csvRowChars r ++
          ('\r' :: '\n' :: joinedChars (r2 :: rs2)) := by
        simp [joinedChars, List.intersperse_cons_cons]
      rw [hj]
      simp only [List.length_append, List.length_cons] at ih' ⊢
      omega

theorem parseCsvAux_joined (rows : List (List String)) :
    ∀ fuel : Nat, rows.length < fuel →
      (∀ r ∈ rows, ∃ s t ts, r = s :: t :: ts) →
      parseCsvAux fuel (joinedChars rows) = some rows := by
  induction rows with
  | nil =>
    intro fuel hf h
    obtain ⟨k, rfl⟩ : ∃ k, fuel = k + 1 := ⟨fuel - 1, by omega⟩
    simp [joinedChars, parseCsvAux]
  | cons r rs ih =>
    intro fuel hf h
    obtain ⟨k, rfl⟩ : ∃ k, fuel = k + 1 := ⟨fuel - 1, by omega⟩
    obtain ⟨s, t, ts, rfl⟩ := h r (by simp)
    cases rs with
    | nil =>
      have hrow := csvRowChars_ne_nil s t ts
      have hlen := csvRowChars_length (t :: ts) s
      have hjr : joinedChars [s :: t :: ts] = csvRowChars (s :: t :: ts) := by
        simp [joinedChars]
      rw [hjr]
      cases hcs : csvRowChars (s :: t :: ts) with
      | nil => exact absurd hcs hrow
      | cons c cs' =>
        simp only [parseCsvAux]
        rw [← hcs]
        rw [parseRecordAux_end (t :: ts) s ((csvRowChars (s :: t :: ts)).length + 1)
          (by simpa using hlen)]
        have hk : parseCsvAux k [] = some [] := by
          obtain ⟨k2, rfl⟩ : ∃ k2, k = k2 + 1 := ⟨k - 1, by simp at hf; omega⟩
          simp [parseCsvAux]
        simp [hk]
    | cons r2 rs2 =>
      have hj : joinedChars ((s :: t :: ts) :: r2 :: rs2) = csvRowChars (s :: t :: ts) ++
          ('\r' :: '\n' :: joinedChars (r2 :: rs2)) := by
        simp [joinedChars, List.intersperse_cons_cons]
      rw [hj]
      have hlen := csvRowChars_length (t :: ts) s
      cases hcs : csvRowChars (s :: t :: ts) ++ ('\r' :: '\n' :: joinedChars (r2 :: rs2)) with
      | nil =>
        have := csvRowChars_ne_nil s t ts
        simp at hcs
      | cons c cs' =>
        simp only [parseCsvAux]
        rw [← hcs]
        rw [parseRecordAux_term (t :: ts) s
          ((csvRowChars (s :: t :: ts) ++ ('\r' :: '\n' :: joinedChars (r2 :: rs2))).length + 1)
          (by simp only [List.length_append, List.length_cons] at hlen ⊢; omega)
          (joinedChars (r2 :: rs2))]
        have hih := ih k (by simp at hf ⊢; omega) (fun x hx => h x (by simp [hx]))
        simp [hih]

/-- Claim C7: for every store, `export("csv")` parses back, with the
conforming reader, into exactly the header row
`id,title,canonical_smiles,qc_warnings,review_comment,reviewed_at` followed
by one record per APPROVED task, and the `review_comment` column of each
record is the stored review comment character for character — quoting and
quote doubling protect embedded commas, quote chars and newlines. -/
theorem export_csv_roundtrip (store : Store) :
    (exportStore store ("csv")).1 = .ok (String.mk (csvExportChars (approvedOf store))) ∧
    parseCsv (String.mk (csvExportChars (approvedOf store))) =
      some (csvHeaders :: (approvedOf store).map csvRecordOf) ∧
    (∀ t ∈ approvedOf store, ∀ rv : Review, t.review = some rv →
      ∀ c : String, rv.comment = some c → (csvRecordOf t).getD 4 ("") = c) := by
  have hshape : ∀ r ∈ csvHeaders :: (approvedOf store).map csvRecordOf,
      ∃ s t ts, r = s :: t :: ts := by
    intro r hr
    rcases List.mem_cons.mp hr with rfl | hmem
    · exact ⟨("id"), ("title"), _, rfl⟩
    · obtain ⟨tk, _, rfl⟩ := List.mem_map.mp hmem
      exact ⟨tk.id, tk.title, _, rfl⟩
  have hexport : csvExportChars (approvedOf store) =
      joinedChars (csvHeaders :: (approvedOf store).map csvRecordOf) := by
    rw [csvExportChars, pyRstrip_csvText _ hshape (by simp)]
  refine ⟨by simp [exportStore], ?_, ?_⟩
  · show parseCsvAux ((csvExportChars (approvedOf store)).length + 1)
      (csvExportChars (approvedOf store)) =
      some (csvHeaders :: (approvedOf store).map csvRecordOf)
    rw [hexport]
    refine parseCsvAux_joined _ _ ?_ hshape
    have hlen := joinedChars_length _ hshape
    omega
  · intro t ht rv hrv c hc
    simp [csvRecordOf, hrv, hc, List.getD]

/-- Witness for C7 at a concrete store: the approved task whose review
comment carries a comma, quote chars, a newline and a carriage return
round-trips verbatim. -/
theorem export_csv_roundtrip_witness :
    parseCsv (String.mk (csvExportChars (approvedOf storeApprovedDemo))) =
      some (csvHeaders :: (approvedOf storeApprovedDemo).map csvRecordOf) ∧
    (csvRecordOf taskApprovedDemo).getD 4 ("") = nastyComment := by
  have h := export_csv_roundtrip storeApprovedDemo
  exact ⟨h.2.1, h.2.2 taskApprovedDemo (by decide) reviewNasty rfl nastyComment rfl⟩
